import Mathlib

/-!
Shallow embedding of the Ares token program
(src/arestoken/src/AREStoken.rs) and verification of the frozen
claims about it.

Modelling conventions:
* A byte buffer is a `List Nat`; well-formed buffers hold values below 256.
* `u64` arithmetic is modelled on `Nat` with explicit wrapping modulo
  2 ^ 64 (`wadd`, `wsub`).  Solana programs are compiled in release mode,
  where Rust integer overflow wraps.
* `i64` values (timestamps) are modelled as `Int`; the little-endian
  codec for them uses the two-complement representation modulo 2 ^ 64.
* Rust slice indexing such as `src[1..9]` panics when the slice is too
  short.  A panic is modelled as the error value `DecodeFail.outOfBounds`.
  The spec names a `DecodeError::TooShort` error; the source never
  constructs such an error, but the constructor `DecodeFail.tooShort` is
  present so that the spec claim about it can be stated.
* The percentage computations (20% pool genesis, 0.25% burn, 5% tax) are
  written in the source as `(x as f64 * c) as u64`.  They are modelled
  bit-exactly over the integers (`mulTrunc`): the u64 is rounded to the
  nearest binary64 value (ties to even), multiplied exactly by the
  binary64 value of the constant and rounded again (IEEE multiplication
  is correctly rounded), then truncated toward zero.  The runtime
  quotient `5.0 / 100.0` equals the binary64 value of the literal 0.05
  because IEEE division is correctly rounded.
* The elapsed-time subtraction `now - last_burn_timestamp` on i64 is
  modelled with wraparound (`i64WrapSub`), matching release-mode Rust.
-/

set_option maxRecDepth 40000

/-- The modulus of u64 arithmetic, 2 ^ 64. -/
def U64MOD : Nat := 18446744073709551616

/-- Wrapping u64 addition (release-mode Rust `+=` on u64). -/
def wadd (a b : Nat) : Nat := (a + b) % U64MOD

/-- Wrapping u64 subtraction (release-mode Rust `-=` on u64); for
arguments below 2 ^ 64 this is two-complement wraparound. -/
def wsub (a b : Nat) : Nat := (a + (U64MOD - b % U64MOD)) % U64MOD

/-- Wrapping i64 subtraction (release-mode Rust `-` on i64). -/
def i64WrapSub (a b : Int) : Int :=
  (a - b + 9223372036854775808) % 18446744073709551616 - 9223372036854775808

/-- Binary length of a natural number, computed with structural fuel so
that it reduces in the kernel.  The outer `bitLen` uses fuel 256, which
is exact for every value below 2 ^ 256; all numerators arising here
from u64 inputs stay below 2 ^ 118. -/
def bitLenAux : Nat → Nat → Nat
  | 0, _ => 0
  | f + 1, n => if n = 0 then 0 else bitLenAux f (n / 2) + 1

/-- Binary length of a natural number (0 for 0). -/
def bitLen (n : Nat) : Nat := bitLenAux 256 n

/-- Round n / 2 ^ k to the nearest integer, ties to even. -/
def rnEven (n k : Nat) : Nat :=
  if k = 0 then n
  else if 2 ^ (k - 1) < n % 2 ^ k then n / 2 ^ k + 1
  else if n % 2 ^ k < 2 ^ (k - 1) then n / 2 ^ k
  else if n / 2 ^ k % 2 = 0 then n / 2 ^ k else n / 2 ^ k + 1

/-- Round a nonnegative integer-scaled value to the nearest binary64
floating-point value (round to nearest, ties to even): the numerator is
rounded to 53 significant bits.  Because the scale is a power of two,
this is exactly the IEEE rounding of the dyadic value n / 2 ^ s for any
s, valid over the binary64 normal range, which covers every value
arising here. -/
def roundDouble (n : Nat) : Nat :=
  if bitLen n ≤ 53 then n
  else rnEven n (bitLen n - 53) * 2 ^ (bitLen n - 53)

/-- The program computation `(x as f64 * c) as u64`, where the binary64
constant c has the dyadic value cm / 2 ^ cs: round x to binary64,
multiply exactly by c and round (IEEE multiplication is correctly
rounded), then truncate toward zero. -/
def mulTrunc (x cm cs : Nat) : Nat := roundDouble (roundDouble x * cm) / 2 ^ cs

/-- Numerator over 2 ^ 57 of the binary64 value of 0.05 (also the
runtime quotient 5.0 / 100.0). -/
def c005num : Nat := 7205759403792794

/-- Numerator over 2 ^ 55 of the binary64 value of the literal 0.20. -/
def c020num : Nat := 7205759403792794

/-- Numerator over 2 ^ 61 of the binary64 value of the literal 0.0025. -/
def c00025num : Nat := 5764607523034235

/-- The burn amount of the time-gated burn (source line 260:
`(pool_data.reserve as f64 * 0.0025) as u64`). -/
def burnAmount (reserve : Nat) : Nat := mulTrunc reserve c00025num 61

/-- Little-endian bytes of a u64 value (`u64::to_le_bytes`). -/
def leBytes8 (n : Nat) : List Nat :=
  [n % 256, n / 256 % 256, n / 65536 % 256, n / 16777216 % 256,
   n / 4294967296 % 256, n / 1099511627776 % 256,
   n / 281474976710656 % 256, n / 72057594037927936 % 256]

/-- Value of a little-endian byte list (`u64::from_le_bytes`). -/
def fromLe (bs : List Nat) : Nat :=
  bs.foldr (fun b acc => b + 256 * acc) 0

/-- Signed value of 8 little-endian bytes (`i64::from_le_bytes`):
two-complement decoding. -/
def i64OfLe (bs : List Nat) : Int :=
  let n := fromLe bs
  if n < 9223372036854775808 then (n : Int) else (n : Int) - (U64MOD : Int)

/-- Little-endian bytes of an i64 value (`i64::to_le_bytes`):
two-complement encoding. -/
def leBytes8I (x : Int) : List Nat := leBytes8 (x % (U64MOD : Int)).toNat

/-- Decode failures.  `outOfBounds` models a Rust slice-index panic;
`tooShort` is the error named by the spec (`DecodeError::TooShort`),
which the source never produces. -/
inductive DecodeFail where
  | outOfBounds
  | tooShort
deriving DecidableEq

instance {ε α : Type} [DecidableEq ε] [DecidableEq α] : DecidableEq (Except ε α) := fun a b =>
  match a, b with
  | .ok x, .ok y => if h : x = y then isTrue (by rw [h]) else isFalse (by simp [h])
  | .error x, .error y => if h : x = y then isTrue (by rw [h]) else isFalse (by simp [h])
  | .ok _, .error _ => isFalse (by simp)
  | .error _, .ok _ => isFalse (by simp)

/-- `src[lo..hi]` on a byte buffer: panics (`outOfBounds`) when the
range does not fit in the buffer. -/
def byteRange (src : List Nat) (lo hi : Nat) : Except DecodeFail (List Nat) :=
  if lo ≤ hi ∧ hi ≤ src.length then .ok ((src.drop lo).take (hi - lo))
  else .error .outOfBounds

/-- `src[i]` on a byte buffer: panics (`outOfBounds`) when the index is
out of range. -/
def byteAt (src : List Nat) (i : Nat) : Except DecodeFail Nat :=
  match src.get? i with
  | some b => .ok b
  | none => .error .outOfBounds

/-- Total slice used only under a length guard
(`instruction_data[lo..hi]` after `instruction_data.len() >= hi`). -/
def takeRange (l : List Nat) (lo hi : Nat) : List Nat :=
  (l.drop lo).take (hi - lo)

/-- Overwrite `dst[lo .. lo+bytes.length)` with `bytes`
(`copy_from_slice` into a subrange); the rest of `dst` is preserved. -/
def writeRange (dst : List Nat) (lo : Nat) (bytes : List Nat) : List Nat :=
  dst.take lo ++ bytes ++ dst.drop (lo + bytes.length)

/-- The 32-byte zero address (`Pubkey::default()`). -/
def pubkeyDefault : List Nat := List.replicate 32 0

/-- `struct AresToken` (also the shape of the per-user token records). -/
structure AresToken where
  is_initialized : Bool
  total_supply : Nat
  unlocked_supply : Nat
  locked_supply : Nat
  ares_symbol : List Nat
deriving DecidableEq

/-- `struct LiquidityPool`. -/
structure LiquidityPool where
  is_initialized : Bool
  reserve : Nat
  last_burn_timestamp : Int
deriving DecidableEq

/-- `struct KingWhale` (the whale record: holder address and largest
tracked amount). -/
structure KingWhale where
  kingwhale_account : List Nat
  largest_purchase : Nat
deriving DecidableEq

/-- `struct Blacklist`. -/
structure Blacklist where
  is_initialized : Bool
  blacklisted_accounts : List (List Nat)
deriving DecidableEq

/-- `struct Wallets`. -/
structure Wallets where
  marketing_wallet : List Nat
  staff_wallet : List Nat
deriving DecidableEq

/-- `AresToken::unpack_from_slice` (LEN = 29): sequential reads
`src[0]`, `src[1..9]`, `src[9..17]`, `src[17..25]`, `src[25..29]`,
each panicking when out of range. -/
def AresToken.unpack_from_slice (src : List Nat) : Except DecodeFail AresToken := do
  let flag ← byteAt src 0
  let ts ← byteRange src 1 9
  let us ← byteRange src 9 17
  let ls ← byteRange src 17 25
  let sym ← byteRange src 25 29
  .ok { is_initialized := flag != 0, total_supply := fromLe ts,
        unlocked_supply := fromLe us, locked_supply := fromLe ls,
        ares_symbol := sym }

/-- `AresToken::pack_into_slice`. -/
def AresToken.pack_into_slice (t : AresToken) (dst : List Nat) : List Nat :=
  let d0 := writeRange dst 0 [if t.is_initialized then 1 else 0]
  let d1 := writeRange d0 1 (leBytes8 t.total_supply)
  let d2 := writeRange d1 9 (leBytes8 t.unlocked_supply)
  let d3 := writeRange d2 17 (leBytes8 t.locked_supply)
  writeRange d3 25 t.ares_symbol

/-- `LiquidityPool::unpack_from_slice` (LEN = 17). -/
def LiquidityPool.unpack_from_slice (src : List Nat) : Except DecodeFail LiquidityPool := do
  let flag ← byteAt src 0
  let res ← byteRange src 1 9
  let ts ← byteRange src 9 17
  .ok { is_initialized := flag != 0, reserve := fromLe res,
        last_burn_timestamp := i64OfLe ts }

/-- `LiquidityPool::pack_into_slice`. -/
def LiquidityPool.pack_into_slice (p : LiquidityPool) (dst : List Nat) : List Nat :=
  let d0 := writeRange dst 0 [if p.is_initialized then 1 else 0]
  let d1 := writeRange d0 1 (leBytes8 p.reserve)
  writeRange d1 9 (leBytes8I p.last_burn_timestamp)

/-- `KingWhale::unpack_from_slice` (LEN = 40). -/
def KingWhale.unpack_from_slice (src : List Nat) : Except DecodeFail KingWhale := do
  let key ← byteRange src 0 32
  let lp ← byteRange src 32 40
  .ok { kingwhale_account := key, largest_purchase := fromLe lp }

/-- `KingWhale::pack_into_slice`. -/
def KingWhale.pack_into_slice (k : KingWhale) (dst : List Nat) : List Nat :=
  let d0 := writeRange dst 0 k.kingwhale_account
  writeRange d0 32 (leBytes8 k.largest_purchase)

/-- `Blacklist::unpack_from_slice` (LEN = 33): `src[1..33]` split into
exact 32-byte chunks, giving exactly one address. -/
def Blacklist.unpack_from_slice (src : List Nat) : Except DecodeFail Blacklist := do
  let flag ← byteAt src 0
  let chunk ← byteRange src 1 33
  .ok { is_initialized := flag != 0, blacklisted_accounts := [chunk] }

/-- `Blacklist::pack_into_slice`: each address written at
`dst[1 + 32*i .. 33 + 32*i)`. -/
def Blacklist.pack_into_slice (b : Blacklist) (dst : List Nat) : List Nat :=
  let d0 := writeRange dst 0 [if b.is_initialized then 1 else 0]
  (b.blacklisted_accounts.enum).foldl
    (fun d ip => writeRange d (1 + ip.1 * 32) ip.2) d0

/-- `Wallets::unpack_from_slice` (LEN = 64). -/
def Wallets.unpack_from_slice (src : List Nat) : Except DecodeFail Wallets := do
  let mw ← byteRange src 0 32
  let sw ← byteRange src 32 64
  .ok { marketing_wallet := mw, staff_wallet := sw }

/-- `Wallets::pack_into_slice`. -/
def Wallets.pack_into_slice (w : Wallets) (dst : List Nat) : List Nat :=
  let d0 := writeRange dst 0 w.marketing_wallet
  writeRange d0 32 w.staff_wallet

/-- `IsInitialized for Wallets`: both wallets differ from the default
address. -/
def Wallets.isInit (w : Wallets) : Bool :=
  w.marketing_wallet ≠ pubkeyDefault ∧ w.staff_wallet ≠ pubkeyDefault

/-- One `AccountInfo` as the pipeline sees it: 32-byte address, owner
identity, signer flag and the mutable data buffer. -/
structure AccountInfo where
  key : List Nat
  owner : List Nat
  is_signer : Bool
  data : List Nat
deriving DecidableEq

/-- The `ProgramError` values the program returns.  The spec names map
as: WrongOwner = `IncorrectProgramId`, NotRentExempt =
`AccountNotRentExempt`, Blacklisted = `InvalidAccountData`,
InsufficientLiquidity and InsufficientUnlocked = `InsufficientFunds`,
StillLocked = `InvalidInstructionData`, MissingAccount =
`NotEnoughAccountKeys`. -/
inductive ProgErr where
  | IncorrectProgramId
  | AccountNotRentExempt
  | InvalidAccountData
  | InsufficientFunds
  | InvalidInstructionData
  | NotEnoughAccountKeys
deriving DecidableEq

/-- Result of one invocation: success, a returned `ProgramError`, or a
Rust panic (out-of-bounds slice index inside a decode). -/
inductive Outcome where
  | ok
  | err (e : ProgErr)
  | panicked
deriving DecidableEq

/-- One invocation of the program.  `rentOk` is the externally computed
result of `ares_account.is_rent_exempt(rent)` and `now` the value of
`clock.unix_timestamp`; both sysvar decodes themselves are treated as
the external oracles of the spec (section 6). -/
structure Invocation where
  program_id : List Nat
  accounts : List AccountInfo
  instruction_data : List Nat
  rentOk : Bool
  now : Int

/-- Replace the data buffer of the account at position `i`. -/
def setData : List AccountInfo → Nat → List Nat → List AccountInfo
  | [], _, _ => []
  | a :: rest, 0, d => { a with data := d } :: rest
  | a :: rest, i + 1, d => a :: setData rest i d

/-- The data buffer of the account at position `i` (empty when absent). -/
def dataAt (accs : List AccountInfo) (i : Nat) : List Nat :=
  match accs.get? i with
  | some a => a.data
  | none => []

/-- Genesis mint of a token record (source lines 220 to 226): on an
uninitialized record set total_supply = 40_000_000 * 1_000_000,
unlocked = 0, locked = total, symbol = the bytes of ARES. -/
def genesisToken (t : AresToken) : AresToken :=
  if t.is_initialized then t
  else { is_initialized := true, total_supply := 40000000 * 1000000,
         unlocked_supply := 0, locked_supply := 40000000 * 1000000,
         ares_symbol := [65, 82, 69, 83] }

/-- Pool genesis (source lines 249 to 253): reserve = 20% of the token
total supply via `(total_supply as f64 * 0.20) as u64`,
last_burn_timestamp = now. -/
def poolGenesis (tok : AresToken) (p : LiquidityPool) (now : Int) : LiquidityPool :=
  if p.is_initialized then p
  else { is_initialized := true, reserve := mulTrunc tok.total_supply c020num 55,
         last_burn_timestamp := now }

/-- Time-gated burn (source lines 256 to 267): when the wrapping i64
difference between now and the last burn time is at least 3600
seconds, remove `(reserve as f64 * 0.0025) as u64` from the reserve
and stamp the burn time. -/
def burnStep (p : LiquidityPool) (now : Int) : LiquidityPool :=
  if 3600 ≤ i64WrapSub now p.last_burn_timestamp then
    { p with reserve := wsub p.reserve (burnAmount p.reserve),
             last_burn_timestamp := now }
  else p

/-- Lazy whale-record init (source lines 275 to 279): the source guard
is the `IsInitialized` impl for KingWhale (holder different from the
default address); the body sets the holder to the key of the whale
account itself and the largest purchase to 0.  (The literal source also
assigns to a nonexistent `is_initialized` field of KingWhale; the
record has no such field, so only the two real field writes are
modelled.) -/
def whaleInit (k : KingWhale) (selfKey : List Nat) : KingWhale :=
  if k.kingwhale_account = pubkeyDefault then
    { kingwhale_account := selfKey, largest_purchase := 0 }
  else k

/-- Whale tracking update (source lines 286 to 294): strictly larger
amounts replace both the holder and the tracked amount. -/
def whaleStep (k : KingWhale) (senderKey : List Nat) (amount : Nat) : KingWhale :=
  if k.largest_purchase < amount then
    { kingwhale_account := senderKey, largest_purchase := amount }
  else k

/-- The 5% transfer tax (source line 359:
`(transfer_amount as f64 * (tax_percentage as f64 / 100.0)) as u64`
with tax_percentage = 5; the runtime quotient equals the binary64
value of 0.05). -/
def tax_amount (amt : Nat) : Nat := mulTrunc amt c005num 57

/-- The two consecutive deductions of the taxed transfer from the
global unlocked supply (source lines 362 and 363): first the transfer
amount, then the tax, each a wrapping u64 subtraction. -/
def deductTransfer (u amt : Nat) : Nat :=
  wsub (wsub u amt) (tax_amount amt)

/-- Tail of the taxed-transfer branch after the wallets record is
settled (source lines 382 to 436): the four balance-copy blocks on the
wallet addresses are byte-for-byte self-copies (they copy bytes 0..8 of
a buffer onto itself) and mutate nothing; then the sender record loses
the transfer amount, the recipient record gains it, and the global
token record and the wallets record are written back. -/
def stageTransferTail (accs : List AccountInfo) (tok1 : AresToken) (amt : Nat)
    (sw rw wa : AccountInfo) (w1 : Wallets) : Outcome × List AccountInfo :=
  match AresToken.unpack_from_slice sw.data with
  | .error _ => (.panicked, accs)
  | .ok st =>
    let st1 := { st with unlocked_supply := wsub st.unlocked_supply amt }
    let accs1 := setData accs 8 (AresToken.pack_into_slice st1 sw.data)
    match AresToken.unpack_from_slice rw.data with
    | .error _ => (.panicked, accs1)
    | .ok rt =>
      let rt1 := { rt with unlocked_supply := wadd rt.unlocked_supply amt }
      let accs2 := setData accs1 9 (AresToken.pack_into_slice rt1 rw.data)
      let accs3 := setData accs2 0 (AresToken.pack_into_slice tok1 (dataAt accs2 0))
      let accs4 := setData accs3 10 (Wallets.pack_into_slice w1 wa.data)
      (.ok, accs4)

/-- Taxed transfer (source lines 342 to 437).  Consumes optional
accounts 8 (sender) and 9 (recipient); runs only when both are present,
both signed, and the payload holds at least 24 bytes.  Checks
InsufficientUnlocked then StillLocked, deducts amount and tax from the
global unlocked supply, performs the in-memory whale reset (never
written back in the source: the whale record is not packed again after
this point), settles the wallets record (accounts 10 to 12), and
updates the sender and recipient records. -/
def stageTransfer (inv : Invocation) (accs : List AccountInfo)
    (tok : AresToken) (kw : KingWhale) : Outcome × List AccountInfo :=
  match accs.get? 8, accs.get? 9 with
  | some sw, some rw =>
    if sw.is_signer = true ∧ rw.is_signer = true ∧ 24 ≤ inv.instruction_data.length then
      let amt := fromLe (takeRange inv.instruction_data 0 8)
      let unlock := i64OfLe (takeRange inv.instruction_data 8 16)
      if tok.unlocked_supply < amt then (.err .InsufficientFunds, accs)
      else if inv.now < unlock then (.err .InvalidInstructionData, accs)
      else
        let tok1 := { tok with unlocked_supply := deductTransfer tok.unlocked_supply amt }
        let _kw1 :=
          if sw.key = kw.kingwhale_account then
            { kw with largest_purchase := wadd 0 amt }
          else kw
        match accs.get? 10 with
        | none => (.err .NotEnoughAccountKeys, accs)
        | some wa =>
          match Wallets.unpack_from_slice wa.data with
          | .error _ => (.panicked, accs)
          | .ok w0 =>
            if w0.isInit then stageTransferTail accs tok1 amt sw rw wa w0
            else
              match accs.get? 11 with
              | none => (.err .NotEnoughAccountKeys, accs)
              | some ma =>
                match accs.get? 12 with
                | none => (.err .NotEnoughAccountKeys, accs)
                | some sa =>
                  stageTransferTail accs tok1 amt sw rw wa
                    { marketing_wallet := ma.key, staff_wallet := sa.key }
    else (.ok, accs)
  | _, _ => (.ok, accs)

/-- Buy step (source lines 301 to 339).  Consumes optional account 7;
runs only when present, signed, and the payload holds at least 8 bytes.
More than the reserve fails with InsufficientLiquidity before any
write; otherwise reserve and unlocked supply move, both records are
written back, and the buyer record (lazily initialized to an
all-zero-supply record) gains the amount. -/
def stageBuy (inv : Invocation) (accs : List AccountInfo) (tok : AresToken)
    (pool : LiquidityPool) (kw : KingWhale) : Outcome × List AccountInfo :=
  match accs.get? 7 with
  | none => stageTransfer inv accs tok kw
  | some sw =>
    if sw.is_signer = true ∧ 8 ≤ inv.instruction_data.length then
      let buy := fromLe (takeRange inv.instruction_data 0 8)
      if pool.reserve < buy then (.err .InsufficientFunds, accs)
      else
        let pool1 := { pool with reserve := wsub pool.reserve buy }
        let tok1 := { tok with unlocked_supply := wadd tok.unlocked_supply buy }
        let accs1 := setData accs 0 (AresToken.pack_into_slice tok1 (dataAt accs 0))
        let accs2 := setData accs1 3 (LiquidityPool.pack_into_slice pool1 (dataAt accs1 3))
        match AresToken.unpack_from_slice sw.data with
        | .error _ => (.panicked, accs2)
        | .ok u0 =>
          let u1 :=
            if u0.is_initialized then u0
            else { is_initialized := true, total_supply := 0, unlocked_supply := 0,
                   locked_supply := 0, ares_symbol := [65, 82, 69, 83] }
          let u2 := { u1 with unlocked_supply := wadd u1.unlocked_supply buy }
          let accs3 := setData accs2 7 (AresToken.pack_into_slice u2 sw.data)
          stageTransfer inv accs3 tok1 kw
    else stageTransfer inv accs tok kw

/-- Whale stage (source lines 272 to 298): decode the whale record from
account 5, lazily initialize it, apply the tracking update when
optional account 6 is present, signed, and the payload holds at least
8 bytes, and write the record back unconditionally. -/
def stageWhale (inv : Invocation) (accs : List AccountInfo) (tok : AresToken)
    (pool : LiquidityPool) : Outcome × List AccountInfo :=
  match accs.get? 5 with
  | none => (.err .NotEnoughAccountKeys, accs)
  | some ka =>
    match KingWhale.unpack_from_slice ka.data with
    | .error _ => (.panicked, accs)
    | .ok kw0 =>
      let kw1 := whaleInit kw0 ka.key
      let kw2 :=
        match accs.get? 6 with
        | none => kw1
        | some sw =>
          if sw.is_signer = true ∧ 8 ≤ inv.instruction_data.length then
            whaleStep kw1 sw.key (fromLe (takeRange inv.instruction_data 0 8))
          else kw1
      let accs1 := setData accs 5 (KingWhale.pack_into_slice kw2 ka.data)
      stageBuy inv accs1 tok pool kw2

/-- Pool stage (source lines 239 to 269): owner check on account 3,
clock sysvar at account 4, decode, lazy genesis, burn, write back. -/
def stagePool (inv : Invocation) (accs : List AccountInfo) (tok : AresToken) :
    Outcome × List AccountInfo :=
  match accs.get? 3 with
  | none => (.err .NotEnoughAccountKeys, accs)
  | some pa =>
    if pa.owner ≠ inv.program_id then (.err .IncorrectProgramId, accs)
    else
      match accs.get? 4 with
      | none => (.err .NotEnoughAccountKeys, accs)
      | some _ =>
        match LiquidityPool.unpack_from_slice pa.data with
        | .error _ => (.panicked, accs)
        | .ok p0 =>
          let p2 := burnStep (poolGenesis tok p0 inv.now) inv.now
          let accs1 := setData accs 3 (LiquidityPool.pack_into_slice p2 pa.data)
          stageWhale inv accs1 tok p2

/-- Blacklist stage (source lines 231 to 237): decode account 2; when
initialized and holding the acting token account address, abort with
the Blacklisted error. -/
def stageBlacklist (inv : Invocation) (accs : List AccountInfo) (tok : AresToken)
    (aresKey : List Nat) : Outcome × List AccountInfo :=
  match accs.get? 2 with
  | none => (.err .NotEnoughAccountKeys, accs)
  | some ba =>
    match Blacklist.unpack_from_slice ba.data with
    | .error _ => (.panicked, accs)
    | .ok bl =>
      if bl.is_initialized = true ∧ aresKey ∈ bl.blacklisted_accounts then
        (.err .InvalidAccountData, accs)
      else stagePool inv accs tok

/-- `process_instruction`: owner check on account 0, rent check against
account 1, decode and lazy genesis of the token record, write it back,
then the blacklist, pool, whale, buy and transfer stages in the fixed
source order. -/
def process_instruction (inv : Invocation) : Outcome × List AccountInfo :=
  match inv.accounts.get? 0 with
  | none => (.err .NotEnoughAccountKeys, inv.accounts)
  | some a0 =>
    if a0.owner ≠ inv.program_id then (.err .IncorrectProgramId, inv.accounts)
    else
      match inv.accounts.get? 1 with
      | none => (.err .NotEnoughAccountKeys, inv.accounts)
      | some _ =>
        if inv.rentOk = false then (.err .AccountNotRentExempt, inv.accounts)
        else
          match AresToken.unpack_from_slice a0.data with
          | .error _ => (.panicked, inv.accounts)
          | .ok t0 =>
            let t1 := genesisToken t0
            let accs1 := setData inv.accounts 0 (AresToken.pack_into_slice t1 a0.data)
            stageBlacklist inv accs1 t1 a0.key

/-! Concrete test fixtures used by witnesses and counterexamples. -/

/-- A 32-byte address whose first byte is `i`. -/
def pk (i : Nat) : List Nat := i :: List.replicate 31 0

/-- A zero buffer of length `n`. -/
def zeros (n : Nat) : List Nat := List.replicate n 0

/-- The program identity used in fixtures. -/
def progId : List Nat := pk 99

/-- A fresh (zeroed) acting token account owned by the program. -/
def tokAcc : AccountInfo :=
  { key := pk 1, owner := progId, is_signer := false, data := zeros 29 }

/-- The rent sysvar account slot. -/
def rentAcc : AccountInfo :=
  { key := pk 2, owner := pk 90, is_signer := false, data := [] }

/-- A zeroed (uninitialized) blacklist account. -/
def blAcc : AccountInfo :=
  { key := pk 3, owner := pk 90, is_signer := false, data := zeros 33 }

/-- A fresh (zeroed) pool account owned by the program. -/
def poolAcc : AccountInfo :=
  { key := pk 4, owner := progId, is_signer := false, data := zeros 17 }

/-- The clock sysvar account slot. -/
def clockAcc : AccountInfo :=
  { key := pk 5, owner := pk 90, is_signer := false, data := [] }

/-- A fresh (zeroed) whale account. -/
def whaleAcc : AccountInfo :=
  { key := pk 6, owner := pk 90, is_signer := false, data := zeros 40 }

/-- A non-signer optional account. -/
def nsAcc (i : Nat) : AccountInfo :=
  { key := pk i, owner := pk 90, is_signer := false, data := zeros 29 }

/-- A signer optional account with the given data buffer. -/
def sigAcc (i : Nat) (d : List Nat) : AccountInfo :=
  { key := pk i, owner := pk 90, is_signer := true, data := d }

/-- A minimal invocation touching only the six fixed accounts. -/
def invC6 : Invocation :=
  { program_id := progId,
    accounts := [tokAcc, rentAcc, blAcc, poolAcc, clockAcc, whaleAcc],
    instruction_data := [], rentOk := true, now := 1000 }

/-- A buy attempt of 2 ^ 63 tokens (payload little-endian) against the
freshly created pool. -/
def invC5 : Invocation :=
  { program_id := progId,
    accounts := [tokAcc, rentAcc, blAcc, poolAcc, clockAcc, whaleAcc,
                 nsAcc 10, sigAcc 11 (zeros 29)],
    instruction_data := [0, 0, 0, 0, 0, 0, 0, 128], rentOk := true, now := 1000 }

/-- The accounts of `invC5` as they stand when the buy step begins:
token genesis, pool genesis and whale init already written back. -/
def preBuyC5 : List AccountInfo :=
  setData (setData (setData invC5.accounts
    0 (AresToken.pack_into_slice
        { is_initialized := true, total_supply := 40000000000000,
          unlocked_supply := 0, locked_supply := 40000000000000,
          ares_symbol := [65, 82, 69, 83] } (zeros 29)))
    3 (LiquidityPool.pack_into_slice
        { is_initialized := true, reserve := 8000000000000,
          last_burn_timestamp := 1000 } (zeros 17)))
    5 (KingWhale.pack_into_slice
        { kingwhale_account := pk 6, largest_purchase := 0 } (zeros 40))

/-- An invocation with all four optional sender slots present but the
whale and buy senders unsigned and an empty payload. -/
def invC10 : Invocation :=
  { program_id := progId,
    accounts := [tokAcc, rentAcc, blAcc, poolAcc, clockAcc, whaleAcc,
                 nsAcc 10, nsAcc 11, sigAcc 12 (zeros 29), nsAcc 13],
    instruction_data := [], rentOk := true, now := 1000 }

/-- An initialized acting token record with unlocked_supply = 100. -/
def tokC8 : AresToken :=
  { is_initialized := true, total_supply := 1000, unlocked_supply := 100,
    locked_supply := 900, ares_symbol := [65, 82, 69, 83] }

/-- The acting token account of the taxed-transfer fixtures. -/
def tokC1 : AccountInfo :=
  { key := pk 1, owner := progId, is_signer := false,
    data := AresToken.pack_into_slice tokC8 (zeros 29) }

/-- The transfer sender account (signed), holding 200 unlocked. -/
def sendC1 : AccountInfo :=
  sigAcc 12 (AresToken.pack_into_slice
    { is_initialized := true, total_supply := 0, unlocked_supply := 200,
      locked_supply := 0, ares_symbol := [65, 82, 69, 83] } (zeros 29))

/-- The transfer recipient account (signed), untouched. -/
def recvC1 : AccountInfo := sigAcc 13 (zeros 29)

/-- An initialized wallets account (marketing and staff set). -/
def walletsC1 : AccountInfo :=
  { key := pk 20, owner := pk 90, is_signer := false, data := pk 7 ++ pk 8 }

/-- A taxed transfer of the whole unlocked supply (100) with
unlock_date 0: passes both guards and underflows the tax deduction. -/
def invC1 : Invocation :=
  { program_id := progId,
    accounts := [tokC1, rentAcc, blAcc, poolAcc, clockAcc, whaleAcc,
                 nsAcc 10, nsAcc 11, sendC1, recvC1, walletsC1],
    instruction_data := (100 :: zeros 7) ++ zeros 8 ++ zeros 8,
    rentOk := true, now := 1000 }

/-- Like `invC1` but with unlock_date = 1000 = now. -/
def invC8a : Invocation :=
  { invC1 with instruction_data := (100 :: zeros 7) ++ (232 :: 3 :: zeros 6) ++ zeros 8 }

/-- Like `invC1` but with unlock_date = 1001 = now + 1. -/
def invC8b : Invocation :=
  { invC1 with instruction_data := (100 :: zeros 7) ++ (233 :: 3 :: zeros 6) ++ zeros 8 }

/-- An initialized blacklist account holding exactly the acting token
account address `pk 1`. -/
def blInitAcc : AccountInfo :=
  { key := pk 3, owner := pk 90, is_signer := false, data := 1 :: pk 1 }

/-- An invocation by a blacklisted acting account. -/
def invC7 : Invocation :=
  { program_id := progId, accounts := [tokAcc, rentAcc, blInitAcc],
    instruction_data := [], rentOk := true, now := 0 }

/-! Validity of record fields: u64 fields below 2 ^ 64, i64 fields in
the signed 64-bit range, addresses of 32 bytes, the symbol of 4 bytes,
and (for the blacklist) exactly the fixed capacity of one address. -/

/-- Valid field values of a token record. -/
def AresToken.wf (t : AresToken) : Prop :=
  t.total_supply < U64MOD ∧ t.unlocked_supply < U64MOD ∧
  t.locked_supply < U64MOD ∧ t.ares_symbol.length = 4

instance (t : AresToken) : Decidable t.wf := by unfold AresToken.wf; infer_instance

/-- Valid field values of a pool record. -/
def LiquidityPool.wf (p : LiquidityPool) : Prop :=
  p.reserve < U64MOD ∧ -9223372036854775808 ≤ p.last_burn_timestamp ∧
  p.last_burn_timestamp < 9223372036854775808

instance (p : LiquidityPool) : Decidable p.wf := by unfold LiquidityPool.wf; infer_instance

/-- Valid field values of a whale record. -/
def KingWhale.wf (k : KingWhale) : Prop :=
  k.kingwhale_account.length = 32 ∧ k.largest_purchase < U64MOD

instance (k : KingWhale) : Decidable k.wf := by unfold KingWhale.wf; infer_instance

/-- Valid field values of a blacklist record: exactly one banned
address (the fixed capacity of the 33-byte layout) of 32 bytes. -/
def Blacklist.wf (b : Blacklist) : Prop :=
  b.blacklisted_accounts.length = 1 ∧ ∀ a ∈ b.blacklisted_accounts, a.length = 32

instance (b : Blacklist) : Decidable b.wf := by unfold Blacklist.wf; infer_instance

/-- Valid field values of a wallets record. -/
def Wallets.wf (w : Wallets) : Prop :=
  w.marketing_wallet.length = 32 ∧ w.staff_wallet.length = 32

instance (w : Wallets) : Decidable w.wf := by unfold Wallets.wf; infer_instance

/-! Helper lemmas. -/

/-- Little-endian u64 decode of encode. -/
theorem fromLe_leBytes8 (n : Nat) (h : n < U64MOD) : fromLe (leBytes8 n) = n := by
  simp only [fromLe, leBytes8, List.foldr]
  unfold U64MOD at h
  omega

/-- Little-endian i64 decode of encode. -/
theorem i64OfLe_leBytes8I (x : Int) (h1 : -9223372036854775808 ≤ x)
    (h2 : x < 9223372036854775808) : i64OfLe (leBytes8I x) = x := by
  have hm : (0 : Int) < (U64MOD : Int) := by unfold U64MOD; omega
  have hnn : 0 ≤ x % (U64MOD : Int) := Int.emod_nonneg x (by unfold U64MOD; omega)
  have hlt : x % (U64MOD : Int) < (U64MOD : Int) := Int.emod_lt_of_pos x hm
  simp only [i64OfLe, leBytes8I]
  rw [fromLe_leBytes8 _ (by unfold U64MOD at hlt ⊢; omega)]
  unfold U64MOD at *
  omega

/-- Wrapping u64 subtraction with no underflow is plain subtraction. -/
theorem wsub_of_le (a b : Nat) (hb : b ≤ a) (ha : a < U64MOD) : wsub a b = a - b := by
  unfold wsub U64MOD at *
  omega

/-- The fuelled binary length never overshoots: 2 ^ bitLenAux f n is
at most 2 * n for positive n, with any fuel. -/
theorem bitLenAux_pow_le (f n : Nat) (h : n ≠ 0) : 2 ^ bitLenAux f n ≤ 2 * n := by
  induction f generalizing n with
  | zero =>
    unfold bitLenAux
    simp only [pow_zero]
    omega
  | succ f ih =>
    unfold bitLenAux
    rw [if_neg h]
    by_cases h2 : n / 2 = 0
    · have h1 : n = 1 := by omega
      subst h1
      have hb : bitLenAux f (1 / 2) = 0 := by cases f <;> rfl
      rw [hb]
      decide
    · have hih := ih (n / 2) h2
      rw [pow_succ]
      omega

/-- Rounding to nearest adds at most one to the truncated quotient. -/
theorem rnEven_le (n k : Nat) : rnEven n k ≤ n / 2 ^ k + 1 := by
  unfold rnEven
  split_ifs with h1 h2 h3 h4
  · subst h1
    simp
  · omega
  · omega
  · omega
  · omega

/-- The binary64 rounding of a natural number is at most three times
the number (a coarse bound sufficient here). -/
theorem roundDouble_le (n : Nat) : roundDouble n ≤ 3 * n := by
  unfold roundDouble
  split
  · omega
  · rename_i h
    have hn : n ≠ 0 := by
      intro h0
      subst h0
      exact h (by rw [show bitLen 0 = 0 from rfl]; omega)
    have h2 : 2 ^ bitLen n ≤ 2 * n := bitLenAux_pow_le 256 n hn
    have h3 : 2 ^ (bitLen n - 53) ≤ 2 ^ bitLen n :=
      Nat.pow_le_pow_right (by omega) (by omega)
    have h4 := rnEven_le n (bitLen n - 53)
    have h5 := Nat.div_mul_le_self n (2 ^ (bitLen n - 53))
    calc rnEven n (bitLen n - 53) * 2 ^ (bitLen n - 53)
        ≤ (n / 2 ^ (bitLen n - 53) + 1) * 2 ^ (bitLen n - 53) :=
          Nat.mul_le_mul_right _ h4
      _ = n / 2 ^ (bitLen n - 53) * 2 ^ (bitLen n - 53) + 2 ^ (bitLen n - 53) := by
          ring
      _ ≤ 3 * n := by omega

/-- The modelled f64 percentage is at most the input whenever the
constant is well below one ninth. -/
theorem mulTrunc_le (x cm cs : Nat) (h : 9 * cm ≤ 2 ^ cs) : mulTrunc x cm cs ≤ x := by
  unfold mulTrunc
  have h1 : roundDouble x ≤ 3 * x := roundDouble_le x
  have h3 : roundDouble (roundDouble x * cm) ≤ 9 * cm * x :=
    calc roundDouble (roundDouble x * cm) ≤ 3 * (roundDouble x * cm) := roundDouble_le _
      _ ≤ 3 * (3 * x * cm) :=
          Nat.mul_le_mul_left 3 (Nat.mul_le_mul_right cm h1)
      _ = 9 * cm * x := by ring
  calc roundDouble (roundDouble x * cm) / 2 ^ cs
      ≤ 9 * cm * x / 2 ^ cs := Nat.div_le_div_right h3
    _ ≤ 2 ^ cs * x / 2 ^ cs := Nat.div_le_div_right (Nat.mul_le_mul_right x h)
    _ = x := Nat.mul_div_cancel_left x (Nat.two_pow_pos cs)

/-- The 5% tax never exceeds the transfer amount. -/
theorem tax_amount_le (amt : Nat) : tax_amount amt ≤ amt :=
  mulTrunc_le amt c005num 57 (by decide)

/-- The 0.25% burn never exceeds the reserve. -/
theorem burnAmount_le (r : Nat) : burnAmount r ≤ r :=
  mulTrunc_le r c00025num 61 (by decide)

/-- `setData` at one position leaves the others unchanged. -/
theorem get?_setData_ne (accs : List AccountInfo) (i j : Nat) (d : List Nat)
    (h : i ≠ j) : (setData accs i d).get? j = accs.get? j := by
  induction accs generalizing i j with
  | nil => simp [setData]
  | cons a rest ih =>
    cases i with
    | zero =>
      cases j with
      | zero => exact absurd rfl h
      | succ j => simp [setData]
    | succ i =>
      cases j with
      | zero => simp [setData]
      | succ j => simpa [setData] using ih i j (by omega)

/-- `dataAt` at a position different from a `setData` write. -/
theorem dataAt_setData_ne (accs : List AccountInfo) (i j : Nat) (d : List Nat)
    (h : i ≠ j) : dataAt (setData accs i d) j = dataAt accs j := by
  unfold dataAt
  rw [get?_setData_ne accs i j d h]

/-- Decoding a token record from a buffer shorter than 29 bytes hits an
out-of-bounds slice index. -/
theorem ares_unpack_short (src : List Nat) (h : src.length < 29) :
    AresToken.unpack_from_slice src = .error .outOfBounds := by
  have h29 : ¬ ((25 : Nat) ≤ 29 ∧ 29 ≤ src.length) := by omega
  unfold AresToken.unpack_from_slice
  cases hg : src[0]? with
  | none => simp [byteAt, List.get?_eq_getElem?, hg, bind, Except.bind]
  | some b =>
    simp only [byteAt, List.get?_eq_getElem?, hg, bind, Except.bind, byteRange]
    by_cases h9 : (1 : Nat) ≤ 9 ∧ 9 ≤ src.length
    · rw [if_pos h9]
      by_cases h17 : (9 : Nat) ≤ 17 ∧ 17 ≤ src.length
      · rw [if_pos h17]
        by_cases h25 : (17 : Nat) ≤ 25 ∧ 25 ≤ src.length
        · rw [if_pos h25, if_neg h29]
        · rw [if_neg h25]
      · rw [if_neg h17]
    · rw [if_neg h9]

/-- Decoding a pool record from a buffer shorter than 17 bytes hits an
out-of-bounds slice index. -/
theorem pool_unpack_short (src : List Nat) (h : src.length < 17) :
    LiquidityPool.unpack_from_slice src = .error .outOfBounds := by
  have h17 : ¬ ((9 : Nat) ≤ 17 ∧ 17 ≤ src.length) := by omega
  unfold LiquidityPool.unpack_from_slice
  cases hg : src[0]? with
  | none => simp [byteAt, List.get?_eq_getElem?, hg, bind, Except.bind]
  | some b =>
    simp only [byteAt, List.get?_eq_getElem?, hg, bind, Except.bind, byteRange]
    by_cases h9 : (1 : Nat) ≤ 9 ∧ 9 ≤ src.length
    · rw [if_pos h9, if_neg h17]
    · rw [if_neg h9]

/-- Decoding a whale record from a buffer shorter than 40 bytes hits an
out-of-bounds slice index. -/
theorem whale_unpack_short (src : List Nat) (h : src.length < 40) :
    KingWhale.unpack_from_slice src = .error .outOfBounds := by
  have h40 : ¬ ((32 : Nat) ≤ 40 ∧ 40 ≤ src.length) := by omega
  unfold KingWhale.unpack_from_slice
  simp only [bind, Except.bind, byteRange]
  by_cases h32 : (0 : Nat) ≤ 32 ∧ 32 ≤ src.length
  · rw [if_pos h32, if_neg h40]
  · rw [if_neg h32]

/-- Decoding a blacklist record from a buffer shorter than 33 bytes
hits an out-of-bounds slice index. -/
theorem blacklist_unpack_short (src : List Nat) (h : src.length < 33) :
    Blacklist.unpack_from_slice src = .error .outOfBounds := by
  have h33 : ¬ ((1 : Nat) ≤ 33 ∧ 33 ≤ src.length) := by omega
  unfold Blacklist.unpack_from_slice
  cases hg : src[0]? with
  | none => simp [byteAt, List.get?_eq_getElem?, hg, bind, Except.bind]
  | some b =>
    simp only [byteAt, List.get?_eq_getElem?, hg, bind, Except.bind, byteRange]
    rw [if_neg h33]

/-- Decoding a wallets record from a buffer shorter than 64 bytes hits
an out-of-bounds slice index. -/
theorem wallets_unpack_short (src : List Nat) (h : src.length < 64) :
    Wallets.unpack_from_slice src = .error .outOfBounds := by
  have h64 : ¬ ((32 : Nat) ≤ 64 ∧ 64 ≤ src.length) := by omega
  unfold Wallets.unpack_from_slice
  simp only [bind, Except.bind, byteRange]
  by_cases h32 : (0 : Nat) ≤ 32 ∧ 32 ≤ src.length
  · rw [if_pos h32, if_neg h64]
  · rw [if_neg h32]

/-- Token record decode of encode. -/
theorem roundtripAres (b : Bool) (ts us ls s0 s1 s2 s3 : Nat)
    (hts : ts < U64MOD) (hus : us < U64MOD) (hls : ls < U64MOD) :
    AresToken.unpack_from_slice (AresToken.pack_into_slice
      ⟨b, ts, us, ls, [s0, s1, s2, s3]⟩ (List.replicate 29 0)) =
      .ok ⟨b, ts, us, ls, [s0, s1, s2, s3]⟩ := by
  have h1 := fromLe_leBytes8 ts hts
  have h2 := fromLe_leBytes8 us hus
  have h3 := fromLe_leBytes8 ls hls
  cases b with
  | false =>
    have e : AresToken.unpack_from_slice (AresToken.pack_into_slice
        ⟨false, ts, us, ls, [s0, s1, s2, s3]⟩ (List.replicate 29 0)) =
        .ok ⟨false, fromLe (leBytes8 ts), fromLe (leBytes8 us), fromLe (leBytes8 ls),
             [s0, s1, s2, s3]⟩ := rfl
    rw [e, h1, h2, h3]
  | true =>
    have e : AresToken.unpack_from_slice (AresToken.pack_into_slice
        ⟨true, ts, us, ls, [s0, s1, s2, s3]⟩ (List.replicate 29 0)) =
        .ok ⟨true, fromLe (leBytes8 ts), fromLe (leBytes8 us), fromLe (leBytes8 ls),
             [s0, s1, s2, s3]⟩ := rfl
    rw [e, h1, h2, h3]

/-- Pool record decode of encode. -/
theorem roundtripPool (b : Bool) (r : Nat) (t : Int) (hr : r < U64MOD)
    (h1 : -9223372036854775808 ≤ t) (h2 : t < 9223372036854775808) :
    LiquidityPool.unpack_from_slice (LiquidityPool.pack_into_slice
      ⟨b, r, t⟩ (List.replicate 17 0)) = .ok ⟨b, r, t⟩ := by
  have hr2 := fromLe_leBytes8 r hr
  have ht := i64OfLe_leBytes8I t h1 h2
  cases b with
  | false =>
    have e : LiquidityPool.unpack_from_slice (LiquidityPool.pack_into_slice
        ⟨false, r, t⟩ (List.replicate 17 0)) =
        .ok ⟨false, fromLe (leBytes8 r), i64OfLe (leBytes8I t)⟩ := rfl
    rw [e, hr2, ht]
  | true =>
    have e : LiquidityPool.unpack_from_slice (LiquidityPool.pack_into_slice
        ⟨true, r, t⟩ (List.replicate 17 0)) =
        .ok ⟨true, fromLe (leBytes8 r), i64OfLe (leBytes8I t)⟩ := rfl
    rw [e, hr2, ht]

/-- Whale record encode into a zeroed 40-byte buffer. -/
theorem whale_pack_eval (key : List Nat) (lp : Nat) (hk : key.length = 32) :
    KingWhale.pack_into_slice ⟨key, lp⟩ (List.replicate 40 0) = key ++ leBytes8 lp := by
  unfold KingWhale.pack_into_slice writeRange
  simp [hk, leBytes8, List.take_left' hk]

/-- Whale record decode of an address followed by the 8 amount bytes. -/
theorem whale_unpack_eval (key : List Nat) (lp : Nat) (hk : key.length = 32) :
    KingWhale.unpack_from_slice (key ++ leBytes8 lp) = .ok ⟨key, fromLe (leBytes8 lp)⟩ := by
  have hlen : (key ++ leBytes8 lp).length = 40 := by simp [hk, leBytes8]
  unfold KingWhale.unpack_from_slice byteRange
  simp only [bind, Except.bind, hlen]
  rw [if_pos (by omega), if_pos (by omega)]
  rw [List.drop_zero]
  rw [show (32 : Nat) - 0 = 32 from rfl, show (40 : Nat) - 32 = 8 from rfl]
  rw [List.take_left' hk, List.drop_left' hk]
  rw [List.take_of_length_le (by simp [leBytes8])]

/-- Whale record decode of encode. -/
theorem roundtripWhale (key : List Nat) (lp : Nat) (hk : key.length = 32)
    (hlp : lp < U64MOD) :
    KingWhale.unpack_from_slice (KingWhale.pack_into_slice
      ⟨key, lp⟩ (List.replicate 40 0)) = .ok ⟨key, lp⟩ := by
  rw [whale_pack_eval key lp hk, whale_unpack_eval key lp hk, fromLe_leBytes8 lp hlp]

/-- Wallets record encode into a zeroed 64-byte buffer. -/
theorem wallets_pack_eval (mw sw : List Nat) (hm : mw.length = 32) (hs : sw.length = 32) :
    Wallets.pack_into_slice ⟨mw, sw⟩ (List.replicate 64 0) = mw ++ sw := by
  unfold Wallets.pack_into_slice writeRange
  simp [hm, hs, List.take_left' hm]

/-- Wallets record decode of two concatenated addresses. -/
theorem wallets_unpack_eval (mw sw : List Nat) (hm : mw.length = 32) (hs : sw.length = 32) :
    Wallets.unpack_from_slice (mw ++ sw) = .ok ⟨mw, sw⟩ := by
  have hlen : (mw ++ sw).length = 64 := by simp [hm, hs]
  unfold Wallets.unpack_from_slice byteRange
  simp only [bind, Except.bind, hlen]
  rw [if_pos (by omega), if_pos (by omega)]
  rw [List.drop_zero, List.take_left' hm, List.drop_left' hm]
  rw [List.take_of_length_le (by omega)]

/-- Wallets record decode of encode. -/
theorem roundtripWallets (mw sw : List Nat) (hm : mw.length = 32) (hs : sw.length = 32) :
    Wallets.unpack_from_slice (Wallets.pack_into_slice
      ⟨mw, sw⟩ (List.replicate 64 0)) = .ok ⟨mw, sw⟩ := by
  rw [wallets_pack_eval mw sw hm hs, wallets_unpack_eval mw sw hm hs]

/-- Blacklist record encode into a zeroed 33-byte buffer. -/
theorem blacklist_pack_eval (b : Bool) (a : List Nat) (ha : a.length = 32) :
    Blacklist.pack_into_slice ⟨b, [a]⟩ (List.replicate 33 0) =
      (if b then 1 else 0) :: a := by
  unfold Blacklist.pack_into_slice writeRange
  simp [ha, List.enum, List.take_left' ha]

/-- Blacklist record decode of a flag byte followed by one address. -/
theorem blacklist_unpack_eval (f : Nat) (a : List Nat) (ha : a.length = 32) :
    Blacklist.unpack_from_slice (f :: a) = .ok ⟨f != 0, [a]⟩ := by
  have hlen : (f :: a).length = 33 := by simp [ha]
  unfold Blacklist.unpack_from_slice byteAt byteRange
  simp only [List.get?_eq_getElem?, List.getElem?_cons_zero, bind, Except.bind, hlen]
  rw [if_pos (by omega)]
  rw [show (33 : Nat) - 1 = 32 from rfl]
  have hd : (f :: a).drop 1 = a := rfl
  rw [hd, List.take_of_length_le (by omega)]

/-- Blacklist record decode of encode. -/
theorem roundtripBlacklist (b : Bool) (a : List Nat) (ha : a.length = 32) :
    Blacklist.unpack_from_slice (Blacklist.pack_into_slice
      ⟨b, [a]⟩ (List.replicate 33 0)) = .ok ⟨b, [a]⟩ := by
  rw [blacklist_pack_eval b a ha, blacklist_unpack_eval _ a ha]
  cases b <;> rfl

/-- Every invocation that passes the owner and rent checks and decodes
the token record runs the lazy genesis, writes the resulting record
back into the token buffer, and hands over to the blacklist stage. -/
theorem pipeline_to_blacklist (inv : Invocation) (a0 ra : AccountInfo) (t0 : AresToken)
    (h0 : inv.accounts.get? 0 = some a0) (how : a0.owner = inv.program_id)
    (h1 : inv.accounts.get? 1 = some ra) (hr : inv.rentOk = true)
    (ht : AresToken.unpack_from_slice a0.data = .ok t0) :
    process_instruction inv = stageBlacklist inv
      (setData inv.accounts 0 (AresToken.pack_into_slice (genesisToken t0) a0.data))
      (genesisToken t0) a0.key := by
  simp only [process_instruction, h0, how, h1, hr, ht, ne_eq, not_true_eq_false,
    if_false, Bool.true_eq_false, ite_false]

/-- The tail of the taxed transfer writes only accounts 8, 9, 0 and 10,
never the whale buffer at position 5. -/
theorem tail_preserves_whale (accs : List AccountInfo) (tok1 : AresToken) (amt : Nat)
    (sw rcpt wa : AccountInfo) (w1 : Wallets) :
    dataAt (stageTransferTail accs tok1 amt sw rcpt wa w1).2 5 = dataAt accs 5 := by
  unfold stageTransferTail
  rcases AresToken.unpack_from_slice sw.data with e | st
  · rfl
  · simp only []
    rcases AresToken.unpack_from_slice rcpt.data with e | rt
    · simp [dataAt_setData_ne]
    · simp [dataAt_setData_ne]

/-- The taxed-transfer stage never writes the whale buffer: the
in-memory whale reset of the source is dropped, since the whale record
is not packed again after the whale stage. -/
theorem transfer_preserves_whale (inv : Invocation) (accs : List AccountInfo)
    (tok : AresToken) (kw : KingWhale) :
    dataAt (stageTransfer inv accs tok kw).2 5 = dataAt accs 5 := by
  unfold stageTransfer
  rcases accs.get? 8 with _ | sw
  · rfl
  · rcases accs.get? 9 with _ | rcpt
    · rfl
    · simp only []
      by_cases hc : sw.is_signer = true ∧ rcpt.is_signer = true ∧ 24 ≤ inv.instruction_data.length
      · rw [if_pos hc]
        by_cases h1 : tok.unlocked_supply < fromLe (takeRange inv.instruction_data 0 8)
        · rw [if_pos h1]
        · rw [if_neg h1]
          by_cases h2 : inv.now < i64OfLe (takeRange inv.instruction_data 8 16)
          · rw [if_pos h2]
          · rw [if_neg h2]
            rcases accs.get? 10 with _ | wa
            · rfl
            · simp only []
              rcases Wallets.unpack_from_slice wa.data with e | w0
              · rfl
              · simp only []
                by_cases hwi : w0.isInit = true
                · rw [if_pos hwi]; exact tail_preserves_whale ..
                · rw [if_neg hwi]
                  rcases accs.get? 11 with _ | ma
                  · rfl
                  · simp only []
                    rcases accs.get? 12 with _ | sa
                    · rfl
                    · exact tail_preserves_whale ..
      · rw [if_neg hc]

/-! Claims. -/

/-- C1, counterexample: the InsufficientUnlocked guard passes with
unlocked_supply = transfer_amount = 100, yet the combined deduction of
transfer_amount and tax_amount wraps to 2 ^ 64 - 5, a value larger
than the original supply, so the subtraction is not effectively
checked.  A full invocation (invC1) exhibits the wrapped value in the
written-back token buffer. -/
theorem claim1_cex :
    100 ≤ 100 ∧
    deductTransfer 100 100 = 18446744073709551611 ∧
    ¬ deductTransfer 100 100 ≤ 100 ∧
    (process_instruction invC1).1 = Outcome.ok ∧
    AresToken.unpack_from_slice (dataAt (process_instruction invC1).2 0) =
      .ok { is_initialized := true, total_supply := 1000,
            unlocked_supply := 18446744073709551611, locked_supply := 900,
            ares_symbol := [65, 82, 69, 83] } := by decide

/-- C1, amended: for u64 values passing the InsufficientUnlocked guard,
the taxed-transfer deduction from the global unlocked supply is free of
underflow exactly when transfer_amount plus the tax (the truncated f64
product of the amount and the binary64 value 0.05) is at most
unlocked_supply: under that bound the wrapping subtractions compute the
plain difference and the counter never exceeds its starting value,
while whenever unlocked_supply minus transfer_amount falls below the
tax the deduction wraps, storing a value that exceeds the true
difference by exactly 2 ^ 64. -/
theorem claim1_checked_deduction (u amt : Nat) (hu : u < U64MOD) (ha : amt < U64MOD) :
    (amt + tax_amount amt ≤ u →
      deductTransfer u amt = u - amt - tax_amount amt ∧ deductTransfer u amt ≤ u) ∧
    (amt ≤ u → u - amt < tax_amount amt →
      (deductTransfer u amt : Int) =
        (u : Int) - amt - tax_amount amt + U64MOD) := by
  have htax : tax_amount amt ≤ amt := tax_amount_le amt
  constructor
  · intro h
    have h1 : wsub u amt = u - amt := wsub_of_le u amt (by omega) hu
    have h2 : wsub (u - amt) (tax_amount amt) = u - amt - tax_amount amt :=
      wsub_of_le _ _ (by omega) (by omega)
    unfold deductTransfer
    rw [h1, h2]
    exact ⟨rfl, by omega⟩
  · intro h1 h2
    have h3 : wsub u amt = u - amt := wsub_of_le u amt h1 hu
    unfold deductTransfer
    rw [h3]
    unfold wsub U64MOD at *
    omega

/-- C1, witness for the amended theorem: the underflow-free branch at
u = 105, amt = 100 and the wrapping branch at u = amt = 100. -/
theorem claim1_checked_deduction_witness :
    (deductTransfer 105 100 = 105 - 100 - tax_amount 100 ∧ deductTransfer 105 100 ≤ 105) ∧
    (deductTransfer 100 100 : Int) = (100 : Int) - 100 - tax_amount 100 + U64MOD :=
  ⟨(claim1_checked_deduction 105 100 (by decide) (by decide)).1 (by decide),
   (claim1_checked_deduction 100 100 (by decide) (by decide)).2 (by decide) (by decide)⟩

/-- C2, counterexample: decoding a 28-byte token buffer fails with an
out-of-bounds slice panic, not with a TooShort decode error. -/
theorem claim2_cex :
    AresToken.unpack_from_slice (List.replicate 28 0) = .error DecodeFail.outOfBounds ∧
    (Except.error DecodeFail.outOfBounds : Except DecodeFail AresToken) ≠
      Except.error DecodeFail.tooShort := by decide

/-- C2, amended: for every record type and every buffer strictly
shorter than the required length (29, 17, 40, 33, 64 bytes), decoding
fails with an out-of-bounds slice panic; it never succeeds, but the
failure is a panic, not a TooShort error, because the source indexes
the buffer without any length check. -/
theorem claim2_short_decode :
    (∀ src : List Nat, src.length < 29 →
      AresToken.unpack_from_slice src = .error .outOfBounds) ∧
    (∀ src : List Nat, src.length < 17 →
      LiquidityPool.unpack_from_slice src = .error .outOfBounds) ∧
    (∀ src : List Nat, src.length < 40 →
      KingWhale.unpack_from_slice src = .error .outOfBounds) ∧
    (∀ src : List Nat, src.length < 33 →
      Blacklist.unpack_from_slice src = .error .outOfBounds) ∧
    (∀ src : List Nat, src.length < 64 →
      Wallets.unpack_from_slice src = .error .outOfBounds) :=
  ⟨ares_unpack_short, pool_unpack_short, whale_unpack_short,
   blacklist_unpack_short, wallets_unpack_short⟩

/-- C2, witness: one maximal short buffer per record type. -/
theorem claim2_short_decode_witness :
    AresToken.unpack_from_slice (List.replicate 28 0) = .error .outOfBounds ∧
    LiquidityPool.unpack_from_slice (List.replicate 16 0) = .error .outOfBounds ∧
    KingWhale.unpack_from_slice (List.replicate 39 0) = .error .outOfBounds ∧
    Blacklist.unpack_from_slice (List.replicate 32 0) = .error .outOfBounds ∧
    Wallets.unpack_from_slice (List.replicate 63 0) = .error .outOfBounds :=
  ⟨claim2_short_decode.1 (List.replicate 28 0) (by decide),
   claim2_short_decode.2.1 (List.replicate 16 0) (by decide),
   claim2_short_decode.2.2.1 (List.replicate 39 0) (by decide),
   claim2_short_decode.2.2.2.1 (List.replicate 32 0) (by decide),
   claim2_short_decode.2.2.2.2 (List.replicate 63 0) (by decide)⟩

/-- C3: the lazy genesis of an uninitialized token record yields
total_supply = 40_000_000_000_000, unlocked_supply = 0, locked_supply =
total_supply, the ASCII symbol ARES, and the initialized flag set; a
freshly zeroed 29-byte buffer decodes as uninitialized; and every
invocation passing the owner and rent checks writes the genesis result
back into the token buffer before the blacklist stage runs. -/
theorem claim3_token_genesis :
    (∀ t : AresToken, t.is_initialized = false →
      genesisToken t = { is_initialized := true, total_supply := 40000000000000,
                         unlocked_supply := 0, locked_supply := 40000000000000,
                         ares_symbol := [65, 82, 69, 83] }) ∧
    AresToken.unpack_from_slice (List.replicate 29 0) =
      .ok { is_initialized := false, total_supply := 0, unlocked_supply := 0,
            locked_supply := 0, ares_symbol := List.replicate 4 0 } ∧
    (∀ (inv : Invocation) (a0 ra : AccountInfo) (t0 : AresToken),
      inv.accounts.get? 0 = some a0 → a0.owner = inv.program_id →
      inv.accounts.get? 1 = some ra → inv.rentOk = true →
      AresToken.unpack_from_slice a0.data = .ok t0 →
      process_instruction inv = stageBlacklist inv
        (setData inv.accounts 0 (AresToken.pack_into_slice (genesisToken t0) a0.data))
        (genesisToken t0) a0.key) := by
  refine ⟨?_, by decide, pipeline_to_blacklist⟩
  intro t h
  unfold genesisToken
  rw [h, if_neg (by simp)]

/-- C3, witness: a concrete uninitialized record and the minimal
invocation invC6. -/
theorem claim3_token_genesis_witness :
    genesisToken { is_initialized := false, total_supply := 7, unlocked_supply := 7,
                   locked_supply := 7, ares_symbol := [1, 2, 3, 4] } =
      { is_initialized := true, total_supply := 40000000000000, unlocked_supply := 0,
        locked_supply := 40000000000000, ares_symbol := [65, 82, 69, 83] } ∧
    process_instruction invC6 = stageBlacklist invC6
      (setData invC6.accounts 0 (AresToken.pack_into_slice
        (genesisToken { is_initialized := false, total_supply := 0, unlocked_supply := 0,
                        locked_supply := 0, ares_symbol := List.replicate 4 0 })
        tokAcc.data))
      (genesisToken { is_initialized := false, total_supply := 0, unlocked_supply := 0,
                      locked_supply := 0, ares_symbol := List.replicate 4 0 })
      tokAcc.key :=
  ⟨claim3_token_genesis.1 _ rfl,
   claim3_token_genesis.2.2 invC6 tokAcc rentAcc _ rfl rfl rfl rfl (by decide)⟩

/-- C4, counterexample: at reserve 18000000000000399 with 3600 seconds
elapsed, the program burns the truncated f64 product 45000000000001,
not the exact rational floor(0.0025 * reserve) = 45000000000000 the
claim asserts, so the reserve decrease differs from the claimed value
at this initialized pool state. -/
theorem claim4_cex :
    (3600 : Int) ≤ i64WrapSub 3600 0 ∧
    burnAmount 18000000000000399 = 45000000000001 ∧
    18000000000000399 * 25 / 10000 = 45000000000000 ∧
    (burnStep ⟨true, 18000000000000399, 0⟩ 3600).reserve =
      18000000000000399 - 45000000000001 ∧
    (burnStep ⟨true, 18000000000000399, 0⟩ 3600).reserve ≠
      18000000000000399 - 18000000000000399 * 25 / 10000 := by decide

/-- C4, amended: on an initialized pool state, a wrapping i64 elapsed
time of exactly 3599 seconds leaves the pool record unchanged, while an
elapsed time of at least 3600 seconds decreases the reserve by exactly
the truncated f64 product of the reserve and the binary64 value 0.0025
(which agrees with floor(0.0025 * reserve) at moderate reserves such as
every fixture here, but not for all u64 reserves) and sets
last_burn_timestamp to now; the single conditional applies the burn at
most once per invocation regardless of how many hours elapsed. -/
theorem claim4_burn_gate (p : LiquidityPool) (now : Int)
    (_hinit : p.is_initialized = true) (hres : p.reserve < U64MOD) :
    (i64WrapSub now p.last_burn_timestamp = 3599 → burnStep p now = p) ∧
    (3600 ≤ i64WrapSub now p.last_burn_timestamp →
      (burnStep p now).reserve = p.reserve - burnAmount p.reserve ∧
      (burnStep p now).last_burn_timestamp = now) := by
  constructor
  · intro h
    unfold burnStep
    rw [if_neg (by omega)]
  · intro h
    unfold burnStep
    rw [if_pos h]
    exact ⟨wsub_of_le _ _ (burnAmount_le _) hres, rfl⟩

/-- C4, witness: reserve 10000, last burn at time 0, now 3599 and 3600
(burning 25). -/
theorem claim4_burn_gate_witness :
    burnStep ⟨true, 10000, 0⟩ 3599 = ⟨true, 10000, 0⟩ ∧
    (burnStep ⟨true, 10000, 0⟩ 3600).reserve = 10000 - burnAmount 10000 ∧
    (burnStep ⟨true, 10000, 0⟩ 3600).last_burn_timestamp = 3600 :=
  ⟨(claim4_burn_gate ⟨true, 10000, 0⟩ 3599 rfl (by decide)).1 (by decide),
   (claim4_burn_gate ⟨true, 10000, 0⟩ 3600 rfl (by decide)).2 (by decide)⟩

/-- C5: a signed buy of more than the pool reserve fails with
InsufficientLiquidity and returns the accounts exactly as they stood
when the buy step began (the failing step writes nothing); a concrete
invocation (invC5) shows the whole pipeline failing that way with the
pre-buy reserve 8_000_000_000_000 and unlocked supply 0 intact in the
buffers. -/
theorem claim5_buy_insufficient :
    (∀ (inv : Invocation) (accs : List AccountInfo) (tok : AresToken)
       (pool : LiquidityPool) (kw : KingWhale) (sw : AccountInfo),
      accs.get? 7 = some sw → sw.is_signer = true →
      8 ≤ inv.instruction_data.length →
      pool.reserve < fromLe (takeRange inv.instruction_data 0 8) →
      stageBuy inv accs tok pool kw = (Outcome.err ProgErr.InsufficientFunds, accs)) ∧
    process_instruction invC5 = (Outcome.err ProgErr.InsufficientFunds, preBuyC5) ∧
    LiquidityPool.unpack_from_slice (dataAt preBuyC5 3) =
      .ok { is_initialized := true, reserve := 8000000000000,
            last_burn_timestamp := 1000 } ∧
    AresToken.unpack_from_slice (dataAt preBuyC5 0) =
      .ok { is_initialized := true, total_supply := 40000000000000,
            unlocked_supply := 0, locked_supply := 40000000000000,
            ares_symbol := [65, 82, 69, 83] } := by
  refine ⟨?_, by decide, by decide, by decide⟩
  intro inv accs tok pool kw sw h7 hs hlen hgt
  simp only [stageBuy, h7]
  rw [if_pos ⟨hs, hlen⟩, if_pos hgt]

/-- C5, witness: the universally quantified conjunct applied to the
concrete pre-buy state of invC5. -/
theorem claim5_buy_insufficient_witness :
    stageBuy invC5 preBuyC5
      { is_initialized := true, total_supply := 40000000000000, unlocked_supply := 0,
        locked_supply := 40000000000000, ares_symbol := [65, 82, 69, 83] }
      { is_initialized := true, reserve := 8000000000000, last_burn_timestamp := 1000 }
      { kingwhale_account := pk 6, largest_purchase := 0 } =
      (Outcome.err ProgErr.InsufficientFunds, preBuyC5) :=
  claim5_buy_insufficient.1 invC5 preBuyC5 _ _ _ (sigAcc 11 (zeros 29))
    (by decide) (by decide) (by decide) (by decide)

/-- C6, counterexample: an invocation with no optional sender accounts
at all (so no signer-authorized purchase and no taxed transfer) still
changes the whale holder address: lazy initialization of the zeroed
whale record writes the whale account own address in place of the zero
address. -/
theorem claim6_cex :
    invC6.accounts.length = 6 ∧
    KingWhale.unpack_from_slice (dataAt invC6.accounts 5) =
      .ok { kingwhale_account := pubkeyDefault, largest_purchase := 0 } ∧
    (process_instruction invC6).1 = Outcome.ok ∧
    KingWhale.unpack_from_slice (dataAt (process_instruction invC6).2 5) =
      .ok { kingwhale_account := pk 6, largest_purchase := 0 } ∧
    pk 6 ≠ pubkeyDefault := by decide

/-- C6, amended: the whale-tracking step replaces the pair
(holder, amount) exactly on strictly larger amounts and leaves the
whole record unchanged on equal or smaller amounts; in addition, lazy
initialization of an uninitialized whale record sets the holder to the
whale account own address (not only a purchase changes the holder),
and the taxed-transfer whale reset changes no byte of the whale buffer
(the reset touches only the in-memory amount and is never written
back), so it never changes the holder address. -/
theorem claim6_whale_update :
    (∀ (k : KingWhale) (s : List Nat) (a : Nat), k.largest_purchase < a →
      whaleStep k s a = ⟨s, a⟩) ∧
    (∀ (k : KingWhale) (s : List Nat) (a : Nat), a ≤ k.largest_purchase →
      whaleStep k s a = k) ∧
    (∀ (k : KingWhale) (key : List Nat), k.kingwhale_account = pubkeyDefault →
      whaleInit k key = ⟨key, 0⟩) ∧
    (∀ (k : KingWhale) (key : List Nat), k.kingwhale_account ≠ pubkeyDefault →
      whaleInit k key = k) ∧
    (∀ (inv : Invocation) (accs : List AccountInfo) (tok : AresToken) (kw : KingWhale),
      dataAt (stageTransfer inv accs tok kw).2 5 = dataAt accs 5) := by
  refine ⟨?_, ?_, ?_, ?_, transfer_preserves_whale⟩
  · intro k s a h
    unfold whaleStep
    rw [if_pos h]
  · intro k s a h
    unfold whaleStep
    rw [if_neg (by omega)]
  · intro k key h
    unfold whaleInit
    rw [if_pos h]
  · intro k key h
    unfold whaleInit
    rw [if_neg h]

/-- C6, witness: a strictly larger amount replaces the pair, an equal
amount leaves the record unchanged, initialization from the zero
holder, no initialization from a nonzero holder, and a concrete taxed
transfer leaving the whale buffer untouched. -/
theorem claim6_whale_update_witness :
    whaleStep ⟨pk 6, 5⟩ (pk 9) 6 = ⟨pk 9, 6⟩ ∧
    whaleStep ⟨pk 6, 5⟩ (pk 9) 5 = ⟨pk 6, 5⟩ ∧
    whaleInit ⟨pubkeyDefault, 0⟩ (pk 6) = ⟨pk 6, 0⟩ ∧
    whaleInit ⟨pk 6, 7⟩ (pk 9) = ⟨pk 6, 7⟩ ∧
    dataAt (stageTransfer invC1 invC1.accounts tokC8 ⟨pk 6, 0⟩).2 5 =
      dataAt invC1.accounts 5 :=
  ⟨claim6_whale_update.1 ⟨pk 6, 5⟩ (pk 9) 6 (by decide),
   claim6_whale_update.2.1 ⟨pk 6, 5⟩ (pk 9) 5 (by decide),
   claim6_whale_update.2.2.1 ⟨pubkeyDefault, 0⟩ (pk 6) rfl,
   claim6_whale_update.2.2.2.1 ⟨pk 6, 7⟩ (pk 9) (by decide),
   claim6_whale_update.2.2.2.2 invC1 invC1.accounts tokC8 ⟨pk 6, 0⟩⟩

/-- C7: when the acting account passes the owner and rent checks, its
record decodes, and the decoded blacklist record is initialized and
contains the acting account address, the invocation fails with the
Blacklisted error and the only buffer written is the token buffer,
which holds the lazily genesis-initialized record; the pool, whale,
buy and transfer stages never write. -/
theorem claim7_blacklist_abort (inv : Invocation) (a0 ra ba : AccountInfo)
    (t0 : AresToken) (bl : Blacklist)
    (h0 : inv.accounts.get? 0 = some a0) (how : a0.owner = inv.program_id)
    (h1 : inv.accounts.get? 1 = some ra) (hr : inv.rentOk = true)
    (ht : AresToken.unpack_from_slice a0.data = .ok t0)
    (h2 : inv.accounts.get? 2 = some ba)
    (hb : Blacklist.unpack_from_slice ba.data = .ok bl)
    (hbi : bl.is_initialized = true) (hmem : a0.key ∈ bl.blacklisted_accounts) :
    process_instruction inv =
      (Outcome.err ProgErr.InvalidAccountData,
       setData inv.accounts 0 (AresToken.pack_into_slice (genesisToken t0) a0.data)) := by
  rw [pipeline_to_blacklist inv a0 ra t0 h0 how h1 hr ht]
  unfold stageBlacklist
  rw [get?_setData_ne _ _ _ _ (by omega), h2]
  simp only [hb]
  rw [if_pos ⟨hbi, hmem⟩]

/-- C7, witness: the blacklisted invocation invC7. -/
theorem claim7_blacklist_abort_witness :
    process_instruction invC7 =
      (Outcome.err ProgErr.InvalidAccountData,
       setData invC7.accounts 0 (AresToken.pack_into_slice
         (genesisToken { is_initialized := false, total_supply := 0, unlocked_supply := 0,
                         locked_supply := 0, ares_symbol := List.replicate 4 0 })
         tokAcc.data)) :=
  claim7_blacklist_abort invC7 tokAcc rentAcc blInitAcc _ ⟨true, [pk 1]⟩
    rfl rfl rfl rfl (by decide) rfl (by decide) rfl (by decide)

/-- C8: in the taxed-transfer step with both accounts signed, a payload
of at least 24 bytes and the InsufficientUnlocked guard satisfied, an
unlock_date equal to now never raises the StillLocked error, while an
unlock_date of now + 1 fails with StillLocked and leaves the accounts
untouched. -/
theorem claim8_lock_boundary (inv : Invocation) (accs : List AccountInfo)
    (tok : AresToken) (kw : KingWhale) (sw rcpt : AccountInfo)
    (h8 : accs.get? 8 = some sw) (h9 : accs.get? 9 = some rcpt)
    (hs : sw.is_signer = true) (hr : rcpt.is_signer = true)
    (hlen : 24 ≤ inv.instruction_data.length)
    (hamt : fromLe (takeRange inv.instruction_data 0 8) ≤ tok.unlocked_supply) :
    (i64OfLe (takeRange inv.instruction_data 8 16) = inv.now →
      (stageTransfer inv accs tok kw).1 ≠ Outcome.err ProgErr.InvalidInstructionData) ∧
    (i64OfLe (takeRange inv.instruction_data 8 16) = inv.now + 1 →
      stageTransfer inv accs tok kw = (Outcome.err ProgErr.InvalidInstructionData, accs)) := by
  constructor
  · intro hu
    simp only [stageTransfer, h8, h9]
    rw [if_pos ⟨hs, hr, hlen⟩, if_neg (by omega), if_neg (by omega)]
    rcases hw : accs.get? 10 with _ | wa
    · simp
    · simp only []
      rcases hwd : Wallets.unpack_from_slice wa.data with e | w0
      · simp
      · simp only []
        by_cases hwi : w0.isInit = true
        · rw [if_pos hwi]
          unfold stageTransferTail
          rcases hsd : AresToken.unpack_from_slice sw.data with e | st
          · simp
          · simp only []
            rcases hrd : AresToken.unpack_from_slice rcpt.data with e | rt
            · simp
            · simp
        · rw [if_neg hwi]
          rcases h11 : accs.get? 11 with _ | ma
          · simp
          · simp only []
            rcases h12 : accs.get? 12 with _ | sa
            · simp
            · simp only []
              unfold stageTransferTail
              rcases hsd : AresToken.unpack_from_slice sw.data with e | st
              · simp
              · simp only []
                rcases hrd : AresToken.unpack_from_slice rcpt.data with e | rt
                · simp
                · simp
  · intro hu
    simp only [stageTransfer, h8, h9]
    rw [if_pos ⟨hs, hr, hlen⟩, if_neg (by omega), if_pos (by omega)]

/-- C8, witness: the fixture transfer with unlock_date = now = 1000
(no StillLocked) and with unlock_date = 1001 = now + 1 (StillLocked). -/
theorem claim8_lock_boundary_witness :
    (stageTransfer invC8a invC1.accounts tokC8 ⟨pk 6, 0⟩).1 ≠
      Outcome.err ProgErr.InvalidInstructionData ∧
    stageTransfer invC8b invC1.accounts tokC8 ⟨pk 6, 0⟩ =
      (Outcome.err ProgErr.InvalidInstructionData, invC1.accounts) :=
  ⟨(claim8_lock_boundary invC8a invC1.accounts tokC8 ⟨pk 6, 0⟩ sendC1 recvC1
      rfl rfl rfl rfl (by decide) (by decide)).1 (by decide),
   (claim8_lock_boundary invC8b invC1.accounts tokC8 ⟨pk 6, 0⟩ sendC1 recvC1
      rfl rfl rfl rfl (by decide) (by decide)).2 (by decide)⟩

/-- C9: for every record type, decoding the bytes produced by encoding
a record with valid fields (for the blacklist, exactly its fixed
capacity of one 32-byte address) into a zeroed buffer of the required
length yields the record back. -/
theorem claim9_roundtrip :
    (∀ t : AresToken, t.wf → AresToken.unpack_from_slice
      (AresToken.pack_into_slice t (List.replicate 29 0)) = .ok t) ∧
    (∀ p : LiquidityPool, p.wf → LiquidityPool.unpack_from_slice
      (LiquidityPool.pack_into_slice p (List.replicate 17 0)) = .ok p) ∧
    (∀ k : KingWhale, k.wf → KingWhale.unpack_from_slice
      (KingWhale.pack_into_slice k (List.replicate 40 0)) = .ok k) ∧
    (∀ b : Blacklist, b.wf → Blacklist.unpack_from_slice
      (Blacklist.pack_into_slice b (List.replicate 33 0)) = .ok b) ∧
    (∀ w : Wallets, w.wf → Wallets.unpack_from_slice
      (Wallets.pack_into_slice w (List.replicate 64 0)) = .ok w) := by
  refine ⟨?_, ?_, ?_, ?_, ?_⟩
  · rintro ⟨b, ts, us, ls, sym⟩ ⟨hts, hus, hls, hsym⟩
    rcases sym with _ | ⟨s0, _ | ⟨s1, _ | ⟨s2, _ | ⟨s3, _ | ⟨s4, tl⟩⟩⟩⟩⟩ <;> simp at hsym
    exact roundtripAres b ts us ls s0 s1 s2 s3 hts hus hls
  · rintro ⟨b, r, t⟩ ⟨hr, h1, h2⟩
    exact roundtripPool b r t hr h1 h2
  · rintro ⟨key, lp⟩ ⟨hk, hlp⟩
    exact roundtripWhale key lp hk hlp
  · rintro ⟨b, l⟩ ⟨hlen, hall⟩
    rcases l with _ | ⟨a, _ | ⟨a2, tl⟩⟩ <;> simp at hlen
    exact roundtripBlacklist b a (hall a (by simp))
  · rintro ⟨mw, sw⟩ ⟨hm, hs⟩
    exact roundtripWallets mw sw hm hs

/-- C9, witness: one concrete valid record per type. -/
theorem claim9_roundtrip_witness :
    AresToken.unpack_from_slice
      (AresToken.pack_into_slice tokC8 (List.replicate 29 0)) = .ok tokC8 ∧
    LiquidityPool.unpack_from_slice (LiquidityPool.pack_into_slice
      ⟨true, 8000000000000, 1000⟩ (List.replicate 17 0)) = .ok ⟨true, 8000000000000, 1000⟩ ∧
    KingWhale.unpack_from_slice (KingWhale.pack_into_slice
      ⟨pk 6, 55⟩ (List.replicate 40 0)) = .ok ⟨pk 6, 55⟩ ∧
    Blacklist.unpack_from_slice (Blacklist.pack_into_slice
      ⟨true, [pk 1]⟩ (List.replicate 33 0)) = .ok ⟨true, [pk 1]⟩ ∧
    Wallets.unpack_from_slice (Wallets.pack_into_slice
      ⟨pk 7, pk 8⟩ (List.replicate 64 0)) = .ok ⟨pk 7, pk 8⟩ :=
  ⟨claim9_roundtrip.1 tokC8 (by decide),
   claim9_roundtrip.2.1 ⟨true, 8000000000000, 1000⟩ (by decide),
   claim9_roundtrip.2.2.1 ⟨pk 6, 55⟩ (by decide),
   claim9_roundtrip.2.2.2.1 ⟨true, [pk 1]⟩ (by decide),
   claim9_roundtrip.2.2.2.2 ⟨pk 7, pk 8⟩ (by decide)⟩

/-- C10: a present but unsigned optional sender, or a payload shorter
than the step requirement (8 bytes for the whale and buy steps, 24
bytes for the transfer step), makes that step a silent no-op: the
whale stage still writes back the (lazily initialized but otherwise
unchanged) whale record and continues, the buy stage continues with
nothing written, the transfer stage returns success with nothing
written, and a whole invocation of that shape (invC10) succeeds. -/
theorem claim10_optional_skip :
    (∀ (inv : Invocation) (accs : List AccountInfo) (tok : AresToken)
       (pool : LiquidityPool) (ka : AccountInfo) (kw0 : KingWhale) (sw : AccountInfo),
      accs.get? 5 = some ka → KingWhale.unpack_from_slice ka.data = .ok kw0 →
      accs.get? 6 = some sw →
      (sw.is_signer = false ∨ inv.instruction_data.length < 8) →
      stageWhale inv accs tok pool =
        stageBuy inv (setData accs 5 (KingWhale.pack_into_slice (whaleInit kw0 ka.key) ka.data))
          tok pool (whaleInit kw0 ka.key)) ∧
    (∀ (inv : Invocation) (accs : List AccountInfo) (tok : AresToken)
       (pool : LiquidityPool) (kw : KingWhale) (sw : AccountInfo),
      accs.get? 7 = some sw →
      (sw.is_signer = false ∨ inv.instruction_data.length < 8) →
      stageBuy inv accs tok pool kw = stageTransfer inv accs tok kw) ∧
    (∀ (inv : Invocation) (accs : List AccountInfo) (tok : AresToken)
       (kw : KingWhale) (sw rcpt : AccountInfo),
      accs.get? 8 = some sw → accs.get? 9 = some rcpt →
      (sw.is_signer = false ∨ rcpt.is_signer = false ∨ inv.instruction_data.length < 24) →
      stageTransfer inv accs tok kw = (Outcome.ok, accs)) ∧
    (process_instruction invC10).1 = Outcome.ok := by
  refine ⟨?_, ?_, ?_, by decide⟩
  · intro inv accs tok pool ka kw0 sw h5 hk h6 hno
    unfold stageWhale
    rw [h5]
    simp only [hk, h6]
    rw [if_neg (by rcases hno with h | h <;> simp [h])]
  · intro inv accs tok pool kw sw h7 hno
    simp only [stageBuy, h7]
    rw [if_neg (by rcases hno with h | h <;> simp [h])]
  · intro inv accs tok kw sw rcpt h8 h9 hno
    simp only [stageTransfer, h8, h9]
    rw [if_neg (by rcases hno with h | h | h <;> simp [h])]

/-- C10, witness: the three skip conjuncts applied to the concrete
accounts of invC10 (unsigned whale and buy senders, signed transfer
sender with unsigned recipient, empty payload). -/
theorem claim10_optional_skip_witness :
    stageWhale invC10 invC10.accounts tokC8 ⟨true, 0, 0⟩ =
      stageBuy invC10
        (setData invC10.accounts 5 (KingWhale.pack_into_slice
          (whaleInit ⟨pubkeyDefault, 0⟩ whaleAcc.key) whaleAcc.data))
        tokC8 ⟨true, 0, 0⟩ (whaleInit ⟨pubkeyDefault, 0⟩ whaleAcc.key) ∧
    stageBuy invC10 invC10.accounts tokC8 ⟨true, 0, 0⟩ ⟨pk 6, 0⟩ =
      stageTransfer invC10 invC10.accounts tokC8 ⟨pk 6, 0⟩ ∧
    stageTransfer invC10 invC10.accounts tokC8 ⟨pk 6, 0⟩ = (Outcome.ok, invC10.accounts) :=
  ⟨claim10_optional_skip.1 invC10 invC10.accounts tokC8 ⟨true, 0, 0⟩ whaleAcc
      ⟨pubkeyDefault, 0⟩ (nsAcc 10) rfl (by decide) rfl (Or.inl rfl),
   claim10_optional_skip.2.1 invC10 invC10.accounts tokC8 ⟨true, 0, 0⟩ ⟨pk 6, 0⟩
      (nsAcc 11) rfl (Or.inl rfl),
   claim10_optional_skip.2.2.1 invC10 invC10.accounts tokC8 ⟨pk 6, 0⟩
      (sigAcc 12 (zeros 29)) (nsAcc 13) rfl rfl (Or.inr (Or.inl rfl))⟩
